import Mathlib

/-!
Shallow embedding of the ComfyUI-Floyo-Flux2-API-node repository, used to
verify its natural-language specification.

The repository holds three parallel implementations of the same client:
`flux2_utils.py` at the root and `nodes/flux2_utils.py` (identical copies,
class `Flux2API` plus the helpers `merge_reference_images`,
`_blank_image_tensor`, `download_image_to_tensor`), and a standalone
custom node `custom_nodes/floyo_flux2_api_node/flux2_node.py`
(class `FloyoFlux2APINode`, methods `generate`, `_load_config`,
`_poll_for_result`).  Each Lean definition below names the Python function
it embeds.
-/

/-- A Python/JSON value, as they appear in the payload dictionaries and
API responses handled by the client. -/
inductive PyVal where
  | null : PyVal
  | bool : Bool → PyVal
  | int : Int → PyVal
  | str : String → PyVal
  | list : List PyVal → PyVal
  | dict : List (String × PyVal) → PyVal

/-- A Python dict with string keys, in insertion order. -/
abbrev Payload := List (String × PyVal)

/-- Python truthiness (`if value:`) for the values modelled by `PyVal`. -/
def pyTruthy : PyVal → Bool
  | PyVal.null => false
  | PyVal.bool b => b
  | PyVal.int n => n ≠ 0
  | PyVal.str s => s ≠ ""
  | PyVal.list xs => ¬xs.isEmpty
  | PyVal.dict d => ¬d.isEmpty

/-- The characters removed by Python's `str.strip()` with no argument
(ASCII whitespace). -/
def pyIsSpace (c : Char) : Bool :=
  c = ' ' || c = '\t' || c = '\n' || c = '\r' || c = '\x0b' || c = '\x0c'

/-- Python's `s.strip()`: remove leading and trailing whitespace. -/
def pyStrip (s : String) : String :=
  String.mk ((s.data.dropWhile pyIsSpace).rdropWhile pyIsSpace)

/-- The `value is None` test from `Flux2API._strip_empty`. -/
def isNullVal : PyVal → Bool
  | PyVal.null => true
  | _ => false

/-- The `isinstance(value, str) and value.strip() == ""` test from
`Flux2API._strip_empty`. -/
def isBlankStr : PyVal → Bool
  | PyVal.str s => pyStrip s = ""
  | _ => false

/-- Model of `Flux2API._strip_empty` (flux2_utils.py lines 34-44): drop every
key whose value is `None` or a whitespace-only string, keep the rest
unchanged and in order. -/
def stripEmpty : Payload → Payload
  | [] => []
  | (k, v) :: rest =>
    if isNullVal v then stripEmpty rest
    else if isBlankStr v then stripEmpty rest
    else (k, v) :: stripEmpty rest

/-- The body transmitted by `Flux2API.submit_request` (flux2_utils.py
line 48): `body = self._strip_empty(payload)`. -/
def submitBody (payload : Payload) : Payload :=
  stripEmpty payload

/-- Result of validating a 2xx submission response in
`Flux2API.submit_request`. -/
inductive SubmitOutcome where
  | ok : Payload → SubmitOutcome
  | missingPollingUrl : SubmitOutcome
  | missingId : SubmitOutcome

/-- The `"k" in data` membership test on a Python dict. -/
def hasKey (data : Payload) (k : String) : Bool :=
  (data.lookup k).isSome

/-- Validation in `Flux2API.submit_request` (flux2_utils.py lines 52-57):
raise if `"polling_url" not in data`, then if `"id" not in data`,
otherwise return `data`. -/
def submitValidate (data : Payload) : SubmitOutcome :=
  if ¬hasKey data "polling_url" then SubmitOutcome.missingPollingUrl
  else if ¬hasKey data "id" then SubmitOutcome.missingId
  else SubmitOutcome.ok data

/-- Response validation in `FloyoFlux2APINode.generate` (custom node
flux2_node.py lines 115-117): `polling_url = data.get("polling_url")`;
`if not polling_url: raise`.  No check of the `id` field is made. -/
def generateValidate (data : Payload) : Except Unit PyVal :=
  match data.lookup "polling_url" with
  | some v => if pyTruthy v then Except.ok v else Except.error ()
  | Option.none => Except.error ()

/-- The status field of a poll response: `payload.get("status")`. -/
def statusOf (p : Payload) : Option PyVal :=
  p.lookup "status"

/-- The `status == "Ready"` test from the poll loops. -/
def isReadyStatus : Option PyVal → Bool
  | some (PyVal.str s) => s = "Ready"
  | _ => false

/-- The failure terminal values checked by both poll loops:
`{"Error", "Failed", "Content Moderated", "Request Moderated"}`. -/
def failureStatuses : List String :=
  ["Error", "Failed", "Content Moderated", "Request Moderated"]

/-- The `status in {"Error", "Failed", "Content Moderated", "Request Moderated"}` test,
returning the matched status string.  Non-string and absent statuses never
match. -/
def failureStatusOf : Option PyVal → Option String
  | some (PyVal.str s) => if s ∈ failureStatuses then some s else Option.none
  | _ => Option.none

/-- Outcome of `Flux2API.poll_result`. -/
inductive PollOutcome where
  | ready : Payload → PollOutcome
  | genFailure : String → Payload → PollOutcome
  | timedOut : PollOutcome
  | exhausted : PollOutcome

/-- Observable trace of one run of `Flux2API.poll_result`: the times at
which GET status requests were issued, the number of
`time.sleep(poll_interval)` calls, and the outcome. -/
structure PollTrace where
  requestTimes : List ℚ
  sleeps : Nat
  outcome : PollOutcome

/-- Model of `Flux2API.poll_result` (flux2_utils.py lines 59-86) over a queue of
status responses, with requests treated as instantaneous so that wall
time advances only by `poll_interval` per sleep.  The `while` guard
`(time.time() - start_time) < self.timeout` is checked before each
request; `exhausted` marks the model artifact of running out of queued
responses before a terminal status or the deadline. -/
def pollResultAux (timeout interval : ℚ) : List Payload → ℚ → PollTrace
  | [], elapsed =>
    if elapsed < timeout then ⟨[], 0, PollOutcome.exhausted⟩
    else ⟨[], 0, PollOutcome.timedOut⟩
  | p :: rest, elapsed =>
    if elapsed < timeout then
      if isReadyStatus (statusOf p) then ⟨[elapsed], 0, PollOutcome.ready p⟩
      else
        match failureStatusOf (statusOf p) with
        | some s => ⟨[elapsed], 0, PollOutcome.genFailure s p⟩
        | Option.none =>
          let t := pollResultAux timeout interval rest (elapsed + interval)
          ⟨elapsed :: t.requestTimes, t.sleeps + 1, t.outcome⟩
    else ⟨[], 0, PollOutcome.timedOut⟩

/-- Model of `Flux2API.poll_result` started at elapsed time zero. -/
def pollResult (timeout interval : ℚ) (responses : List Payload) : PollTrace :=
  pollResultAux timeout interval responses 0

/-- Outcome of `FloyoFlux2APINode._poll_for_result`. -/
inductive PollNodeOutcome where
  | sampleUrl : PyVal → PollNodeOutcome
  | missingSample : PollNodeOutcome
  | genFailure : String → Payload → PollNodeOutcome
  | timedOut : PollNodeOutcome
  | attrError : PollNodeOutcome
  | exhausted : PollNodeOutcome

/-- Observable trace of one run of `FloyoFlux2APINode._poll_for_result`. -/
structure PollNodeTrace where
  requestTimes : List ℚ
  sleeps : Nat
  outcome : PollNodeOutcome

/-- The lookup `payload.get("result", {}).get("sample")` from `_poll_for_result`
(custom node flux2_node.py lines 165-166).  A present but non-dict
`result` value makes the Python raise `AttributeError`. -/
def getSample (p : Payload) : Except Unit (Option PyVal)
  := match p.lookup "result" with
  | Option.none => Except.ok Option.none
  | some (PyVal.dict d) => Except.ok (d.lookup "sample")
  | some _ => Except.error ()

/-- Model of `FloyoFlux2APINode._poll_for_result` (custom node flux2_node.py
lines 146-177) over a queue of status responses.  Unlike
`Flux2API.poll_result` this is a `while True:` loop; the deadline check
`time.time() - start_time > max_wait_seconds` happens only after the
request and the terminal-status checks, just before the sleep. -/
def pollForResultAux (maxWait interval : ℚ) : List Payload → ℚ → PollNodeTrace
  | [], _ => ⟨[], 0, PollNodeOutcome.exhausted⟩
  | p :: rest, elapsed =>
    if isReadyStatus (statusOf p) then
      match getSample p with
      | Except.error _ => ⟨[elapsed], 0, PollNodeOutcome.attrError⟩
      | Except.ok Option.none => ⟨[elapsed], 0, PollNodeOutcome.missingSample⟩
      | Except.ok (some v) =>
        if pyTruthy v then ⟨[elapsed], 0, PollNodeOutcome.sampleUrl v⟩
        else ⟨[elapsed], 0, PollNodeOutcome.missingSample⟩
    else
      match failureStatusOf (statusOf p) with
      | some s => ⟨[elapsed], 0, PollNodeOutcome.genFailure s p⟩
      | Option.none =>
        if maxWait < elapsed then ⟨[elapsed], 0, PollNodeOutcome.timedOut⟩
        else
          let t := pollForResultAux maxWait interval rest (elapsed + interval)
          ⟨elapsed :: t.requestTimes, t.sleeps + 1, t.outcome⟩

/-- Model of `FloyoFlux2APINode._poll_for_result` started at elapsed time zero. -/
def pollForResult (maxWait interval : ℚ) (responses : List Payload) : PollNodeTrace :=
  pollForResultAux maxWait interval responses 0

/-- Field name `f"input_image_{idx}"` used by `merge_reference_images`. -/
def slotKey (idx : Nat) : String :=
  "input_image_" ++ toString idx

/-- The `if image and image.strip():` test from `merge_reference_images`. -/
def keepRef (image : String) : Bool :=
  image ≠ "" && pyStrip image ≠ ""

/-- The extras loop of `merge_reference_images` (flux2_utils.py lines
116-120): `for idx, image in enumerate(additional_images, start=2)`,
`if idx > 8: break`, and insert `payload[f"input_image_{idx}"] =
image.strip()` when the entry is non-blank. -/
def mergeExtras : List String → Nat → List (String × String)
  | [], _ => []
  | image :: rest, idx =>
    if 8 < idx then []
    else if keepRef image then (slotKey idx, pyStrip image) :: mergeExtras rest (idx + 1)
    else mergeExtras rest (idx + 1)

/-- Model of `merge_reference_images` (flux2_utils.py lines 106-122, identical in
nodes/flux2_utils.py lines 111-127): `input_image` holds the main image
verbatim when it is truthy, then the extras loop fills
`input_image_2` onward. -/
def mergeReferenceImages (mainImage : String) (additionalImages : List String) :
    List (String × String) :=
  (if mainImage ≠ "" then [("input_image", mainImage)] else [])
    ++ mergeExtras additionalImages 2

/-- One dimension check inside `_validate_resolution` (flux2_node.py
lines 6-15, identical in nodes/flux2_node.py and nodes/flux2_flex_node.py):
`if dim <= 0: continue`, then the multiple-of-16 check, then the range
check. -/
def validateDim (dimName : String) (dim : Int) : Option String :=
  if dim ≤ 0 then Option.none
  else if dim % 16 ≠ 0 then
    some (dimName ++ " must be a multiple of 16 (got " ++ toString dim ++ ").")
  else if dim < 64 ∨ 2048 < dim then
    some (dimName ++ " must be between 64 and 2048 pixels (got " ++ toString dim ++ ").")
  else Option.none

/-- Model of `_validate_resolution(width, height)`: the loop over
`(("width", width), ("height", height))` returns the first error
message, or `None` when both dimensions pass. -/
def validateResolution (width height : Int) : Option String :=
  match validateDim "width" width with
  | some e => some e
  | Option.none => validateDim "height" height

/-- Truthiness of an optional config string: `os.environ.get` /
`config.get(..., fallback=None)` give `None` or a string, and the
resolver tests them with `if value:`. -/
def strTruthy : Option String → Bool
  | some s => s ≠ ""
  | Option.none => false

/-- One setting of `Flux2Config._initialize` (nodes/flux2_config.py
lines 16-67): take the environment value when truthy, else the config
file value when truthy, else the given fallback. -/
def resolveSetting (env file dflt : Option String) : Option String :=
  if strTruthy env then env
  else if strTruthy file then file
  else dflt

/-- The hard-coded default base URL in `Flux2Config._initialize`. -/
def defaultBaseUrl : String := "https://api.bfl.ai/v1/flux-2-pro"

/-- The hard-coded default flex base URL in `Flux2Config._initialize`. -/
def defaultFlexBaseUrl : String := "https://api.bfl.ai/v1/flux-2-flex"

/-- The field `self._key` as resolved by `Flux2Config._initialize`: environment,
then config file, no default. -/
def flux2ConfigKey (envKey fileKey : Option String) : Option String :=
  resolveSetting envKey fileKey Option.none

/-- The field `self._base_url` as resolved by `Flux2Config._initialize`. -/
def flux2ConfigBaseUrl (envBase fileBase : Option String) : Option String :=
  resolveSetting envBase fileBase (some defaultBaseUrl)

/-- The field `self._flex_base_url` as resolved by `Flux2Config._initialize`. -/
def flux2ConfigFlexBaseUrl (envBase fileBase : Option String) : Option String :=
  resolveSetting envBase fileBase (some defaultFlexBaseUrl)

/-- Model of `Flux2API.__init__` (flux2_utils.py lines 18-32): read the key from
`Flux2Config` and raise `Flux2APIError` when `not api_key`. -/
def flux2ApiInitKey (envKey fileKey : Option String) : Except Unit String :=
  match flux2ConfigKey envKey fileKey with
  | some k => if k = "" then Except.error () else Except.ok k
  | Option.none => Except.error ()

/-- Substring test `pat in s` on Python strings. -/
def pyContains (s pat : String) : Bool :=
  2 ≤ (s.splitOn pat).length

/-- API-key resolution in `FloyoFlux2APINode._load_config` (custom node
flux2_node.py lines 133-135): `os.getenv("BFL_API_KEY") or
config.get("auth", "api_key", fallback=None)`, then raise when the key
is falsy or still contains the placeholder `YOUR_BFL_API_KEY`. -/
def loadConfigApiKey (envKey fileKey : Option String) : Except Unit String :=
  match (if strTruthy envKey then envKey else fileKey) with
  | some k =>
    if ¬(k ≠ "") ∨ pyContains k "YOUR_BFL_API_KEY" then Except.error ()
    else Except.ok k
  | Option.none => Except.error ()

/-- The hard-coded default base URL of the custom node. -/
def nodeDefaultBaseUrl : String := "https://api.bfl.ai/v1"

/-- Base-URL resolution in `FloyoFlux2APINode._load_config` (custom node
flux2_node.py line 137): `config.get("api", "base_url",
fallback=DEFAULT_BASE_URL)`.  The Python reads no environment variable
for this setting; the `envBase` argument models the ambient environment,
which the code ignores. -/
def loadConfigBaseUrl (_envBase fileBase : Option String) : String :=
  match fileBase with
  | some s => s
  | Option.none => nodeDefaultBaseUrl

/-- A host-side image tensor: shape plus a pixel function
(row, column, channel) with values in [0,1] modelled as rationals. -/
structure ImageTensor where
  batch : Nat
  height : Nat
  width : Nat
  channels : Nat
  pixel : Nat → Nat → Nat → ℚ

/-- Model of `_blank_image_tensor` (nodes/flux2_utils.py lines 174-177):
`np.zeros((height, width, 3), dtype=np.uint8)` scaled by `1/255` with a
leading batch dimension, i.e. an all-black image. -/
def blankImageTensor (width height : Nat) : ImageTensor :=
  ⟨1, height, width, 3, fun _ _ _ => 0⟩

/-- Model of `download_image_to_tensor` (nodes/flux2_utils.py lines 180-198).
The `fetched` argument is the outcome of the `try` block (HTTP GET,
`raise_for_status`, RGB decode, normalization): `Except.error` when the
fetch or decode raised.  An empty URL is falsy and short-circuits to the
placeholder; any exception is caught and also yields the placeholder,
so the function always returns a tensor. -/
def downloadImageToTensor (url : String) (fetched : Except String ImageTensor) :
    ImageTensor :=
  if url = "" then blankImageTensor 512 512
  else
    match fetched with
    | Except.ok t => t
    | Except.error _ => blankImageTensor 512 512

/-- A status that is neither the success value nor a failure value:
the poll loops keep waiting on it. -/
def nonTerminalStatus (p : Payload) : Bool :=
  !isReadyStatus (statusOf p) && (failureStatusOf (statusOf p)).isNone

/-- The expected request issue times: one request per poll iteration,
spaced `interval` apart starting at `elapsed`. -/
def requestSchedule (elapsed interval : ℚ) (n : Nat) : List ℚ :=
  (List.range n).map (fun (k : Nat) => elapsed + (k : ℚ) * interval)

/-! ### Helper lemmas -/

lemma mk_eq_empty_iff (l : List Char) : String.mk l = "" ↔ l = [] := by
  constructor
  · intro h
    exact congrArg String.data h
  · intro h
    rw [h]

lemma pyStrip_eq_empty_iff (s : String) :
    pyStrip s = "" ↔ ∀ c ∈ s.data, pyIsSpace c := by
  rw [pyStrip, mk_eq_empty_iff, List.rdropWhile_eq_nil_iff]
  constructor
  · intro h
    rw [← List.dropWhile_eq_nil_iff (p := pyIsSpace)]
    cases heq : s.data.dropWhile pyIsSpace with
    | nil => rfl
    | cons x xs =>
      have hx := List.head?_dropWhile_not pyIsSpace s.data
      rw [heq] at hx
      simp only [List.head?_cons] at hx
      have hx2 := h x (by rw [heq]; exact List.mem_cons_self x xs)
      simp [hx2] at hx
  · intro h x hx
    exact h x ((List.dropWhile_suffix pyIsSpace).sublist.mem hx)

lemma isNullVal_eq_true_iff (v : PyVal) : isNullVal v = true ↔ v = PyVal.null := by
  cases v <;> simp [isNullVal]

lemma isBlankStr_eq_true_iff (v : PyVal) :
    isBlankStr v = true ↔ ∃ s, v = PyVal.str s ∧ ∀ c ∈ s.data, pyIsSpace c := by
  cases v <;> simp [isBlankStr, pyStrip_eq_empty_iff]

lemma stripEmpty_eq_filter (payload : Payload) :
    stripEmpty payload
      = payload.filter (fun kv => !isNullVal kv.2 && !isBlankStr kv.2) := by
  induction payload with
  | nil => rfl
  | cons kv rest ih =>
    obtain ⟨k, v⟩ := kv
    by_cases h1 : isNullVal v
    · simp [stripEmpty, h1, List.filter, ih]
    · by_cases h2 : isBlankStr v
      · simp [stripEmpty, h1, h2, List.filter, ih]
      · simp [stripEmpty, h1, h2, List.filter, ih]

/-! ### Claim C1 -/

/-- Claim C1: for every payload mapping, the request body transmitted by
`submit_request` contains exactly those fields of the payload whose value
is neither `None` nor a string consisting only of whitespace, and each
retained field maps to its original value unchanged. -/
theorem submit_body_strips_exactly_null_and_blank
    (payload : Payload) (k : String) (v : PyVal) :
    (k, v) ∈ submitBody payload ↔
      ((k, v) ∈ payload ∧ v ≠ PyVal.null ∧
        ¬∃ s, v = PyVal.str s ∧ ∀ c ∈ s.data, pyIsSpace c) := by
  rw [submitBody, stripEmpty_eq_filter, List.mem_filter]
  simp only [Bool.and_eq_true, Bool.not_eq_true']
  constructor
  · rintro ⟨hmem, h1, h2⟩
    refine ⟨hmem, ?_, ?_⟩
    · intro hnull
      rw [← isNullVal_eq_true_iff, h1] at hnull
      exact Bool.false_ne_true hnull
    · intro hblank
      rw [← isBlankStr_eq_true_iff, h2] at hblank
      exact Bool.false_ne_true hblank
  · rintro ⟨hmem, h1, h2⟩
    refine ⟨hmem, ?_, ?_⟩
    · rw [Bool.eq_false_iff]
      intro hc
      exact h1 ((isNullVal_eq_true_iff v).mp hc)
    · rw [Bool.eq_false_iff]
      intro hc
      exact h2 ((isBlankStr_eq_true_iff v).mp hc)


lemma requestSchedule_succ (elapsed interval : ℚ) (n : Nat) :
    requestSchedule elapsed interval (n + 1)
      = elapsed :: requestSchedule (elapsed + interval) interval n := by
  rw [requestSchedule, List.range_succ_eq_map, List.map_cons, List.map_map]
  refine congrArg₂ _ (by push_cast; ring) ?_
  rw [requestSchedule]
  refine List.map_congr_left ?_
  intro k _
  simp only [Function.comp_apply]
  push_cast
  ring

lemma pollResultAux_ready_after (timeout interval : ℚ) (p : Payload)
    (rest : List Payload) (pre : List Payload) :
    ∀ elapsed : ℚ,
      (∀ q ∈ pre, nonTerminalStatus q = true) →
      isReadyStatus (statusOf p) = true →
      (∀ k : Nat, k ≤ pre.length → elapsed + (k : ℚ) * interval < timeout) →
      pollResultAux timeout interval (pre ++ p :: rest) elapsed =
        ⟨requestSchedule elapsed interval (pre.length + 1),
          pre.length, PollOutcome.ready p⟩ := by
  induction pre with
  | nil =>
    intro elapsed hpre hready hdl
    have h0 : elapsed < timeout := by
      have := hdl 0 (by simp)
      simpa using this
    simp [pollResultAux, h0, hready, requestSchedule, List.range_succ]
  | cons q pre ih =>
    intro elapsed hpre hready hdl
    have hq := hpre q (List.mem_cons_self q pre)
    rw [nonTerminalStatus, Bool.and_eq_true, Bool.not_eq_true',
      Option.isNone_iff_eq_none] at hq
    have h0 : elapsed < timeout := by
      have := hdl 0 (by simp)
      simpa using this
    have hrec := ih (elapsed + interval)
      (fun r hr => hpre r (List.mem_cons_of_mem q hr))
      hready
      (fun k hk => by
        have := hdl (k + 1) (by simpa using Nat.succ_le_succ hk)
        push_cast at this ⊢
        linarith)
    simp only [List.cons_append, pollResultAux, h0, if_true, hq.1, hq.2,
      Bool.false_eq_true, if_false, List.append_eq, hrec, List.length_cons,
      requestSchedule_succ]

lemma pollForResultAux_ready_head (maxWait interval : ℚ) (p : Payload)
    (rest : List Payload) (elapsed : ℚ)
    (hready : isReadyStatus (statusOf p) = true) :
    (pollForResultAux maxWait interval (p :: rest) elapsed).requestTimes = [elapsed]
      ∧ (pollForResultAux maxWait interval (p :: rest) elapsed).sleeps = 0 := by
  simp only [pollForResultAux, hready, if_true]
  cases getSample p with
  | error e => exact ⟨rfl, rfl⟩
  | ok o =>
    cases o with
    | none => exact ⟨rfl, rfl⟩
    | some v => by_cases hv : pyTruthy v <;> simp [hv]

/-! ### Claim C2 -/

/-- Claim C2: for every polling URL queue and every poll interval, when a
status response carries the success status "Ready", `Flux2API.poll_result`
returns that poll result immediately: the request that received the Ready
response is the last request issued and no sleep follows it, whatever the
configured poll interval; and `FloyoFlux2APINode._poll_for_result`
likewise issues no further status request and does not sleep once a Ready
response arrives. -/
theorem poll_ready_returns_immediately
    (timeout interval maxWait : ℚ) (pre rest : List Payload) (p : Payload)
    (hint : 0 ≤ interval)
    (hpre : ∀ q ∈ pre, nonTerminalStatus q = true)
    (hready : isReadyStatus (statusOf p) = true)
    (hdl : (pre.length : ℚ) * interval < timeout) :
    pollResult timeout interval (pre ++ p :: rest)
        = ⟨requestSchedule 0 interval (pre.length + 1), pre.length,
            PollOutcome.ready p⟩
      ∧ (pollForResult maxWait interval (p :: rest)).requestTimes = [0]
      ∧ (pollForResult maxWait interval (p :: rest)).sleeps = 0 := by
  refine ⟨?_, ?_, ?_⟩
  · rw [pollResult]
    apply pollResultAux_ready_after _ _ _ _ _ _ hpre hready
    intro k hk
    have hcast : (k : ℚ) ≤ (pre.length : ℚ) := by exact_mod_cast hk
    have hmul : (k : ℚ) * interval ≤ (pre.length : ℚ) * interval :=
      mul_le_mul_of_nonneg_right hcast hint
    linarith
  · exact (pollForResultAux_ready_head maxWait interval p rest 0 hready).1
  · exact (pollForResultAux_ready_head maxWait interval p rest 0 hready).2

/-- Witness for C2 at a concrete pending-then-ready response queue. -/
theorem poll_ready_returns_immediately_witness :
    pollResult 10 1 [[("status", PyVal.str "Pending")], [("status", PyVal.str "Ready")]]
        = ⟨[0, 1], 1, PollOutcome.ready [("status", PyVal.str "Ready")]⟩
      ∧ (pollForResult 10 1 [[("status", PyVal.str "Ready")]]).requestTimes = [0]
      ∧ (pollForResult 10 1 [[("status", PyVal.str "Ready")]]).sleeps = 0 := by
  have h := poll_ready_returns_immediately 10 1 10
      [[("status", PyVal.str "Pending")]] [] [("status", PyVal.str "Ready")]
      (by norm_num) (by decide) (by decide) (by norm_num)
  simp only [List.singleton_append, List.length_singleton] at h
  refine ⟨?_, h.2.1, h.2.2⟩
  rw [h.1]
  simp [requestSchedule, List.range_succ]

lemma failure_status_props (s : String) (hs : s ∈ failureStatuses) :
    isReadyStatus (some (PyVal.str s)) = false
      ∧ failureStatusOf (some (PyVal.str s)) = some s := by
  simp only [failureStatuses, List.mem_cons, List.mem_singleton,
    List.not_mem_nil, or_false] at hs
  rcases hs with rfl | rfl | rfl | rfl <;> exact ⟨by decide, by decide⟩

/-! ### Claim C3 -/

/-- Claim C3: for each defined failure status value ("Error", "Failed",
"Content Moderated", "Request Moderated"), a poll response carrying that
status makes both poll loops fail at once with a generation-failure error
carrying the status value and the full response payload, while any status
that is neither "Ready" nor a failure value makes the loop sleep and
continue with the remaining responses. -/
theorem poll_failure_statuses_fail_others_continue
    (timeout interval maxWait : ℚ) (p : Payload) (rest : List Payload)
    (htimeout : 0 < timeout) :
    (∀ s, s ∈ failureStatuses → statusOf p = some (PyVal.str s) →
        pollResult timeout interval (p :: rest)
            = ⟨[0], 0, PollOutcome.genFailure s p⟩
          ∧ pollForResult maxWait interval (p :: rest)
            = ⟨[0], 0, PollNodeOutcome.genFailure s p⟩)
      ∧ (nonTerminalStatus p = true →
          (pollResult timeout interval (p :: rest)).sleeps
              = (pollResultAux timeout interval rest interval).sleeps + 1
            ∧ (pollResult timeout interval (p :: rest)).outcome
              = (pollResultAux timeout interval rest interval).outcome
            ∧ (0 ≤ maxWait →
                (pollForResult maxWait interval (p :: rest)).sleeps
                    = (pollForResultAux maxWait interval rest interval).sleeps + 1
                  ∧ (pollForResult maxWait interval (p :: rest)).outcome
                    = (pollForResultAux maxWait interval rest interval).outcome)) := by
  constructor
  · intro s hs hst
    have hp := failure_status_props s hs
    constructor
    · rw [pollResult]
      simp [pollResultAux, htimeout, hst, hp.1, hp.2]
    · rw [pollForResult]
      simp [pollForResultAux, hst, hp.1, hp.2]
  · intro hnt
    rw [nonTerminalStatus, Bool.and_eq_true, Bool.not_eq_true',
      Option.isNone_iff_eq_none] at hnt
    refine ⟨?_, ?_, ?_⟩
    · simp [pollResult, pollResultAux, htimeout, hnt.1, hnt.2]
    · simp [pollResult, pollResultAux, htimeout, hnt.1, hnt.2]
    · intro hmw
      have hmw2 : ¬(maxWait < 0) := not_lt.mpr hmw
      constructor <;>
        simp [pollForResult, pollForResultAux, hnt.1, hnt.2, hmw2]

/-- Witness for C3 at the concrete failure status "Failed" and a concrete
non-terminal status "Pending". -/
theorem poll_failure_statuses_witness :
    (pollResult 10 1 [[("status", PyVal.str "Failed")]]
        = ⟨[0], 0, PollOutcome.genFailure "Failed" [("status", PyVal.str "Failed")]⟩
      ∧ pollForResult 10 1 [[("status", PyVal.str "Failed")]]
        = ⟨[0], 0, PollNodeOutcome.genFailure "Failed" [("status", PyVal.str "Failed")]⟩)
      ∧ (pollResult 10 1 [[("status", PyVal.str "Pending")]]).sleeps
          = (pollResultAux 10 1 [] 1).sleeps + 1 := by
  constructor
  · exact (poll_failure_statuses_fail_others_continue 10 1 10
      [("status", PyVal.str "Failed")] [] (by norm_num)).1 "Failed" (by decide) rfl
  · exact ((poll_failure_statuses_fail_others_continue 10 1 10
      [("status", PyVal.str "Pending")] [] (by norm_num)).2 (by decide)).1

lemma pollResultAux_nonterminal_timeout (timeout interval : ℚ) :
    ∀ (responses : List Payload) (elapsed : ℚ),
      (∀ q ∈ responses, nonTerminalStatus q = true) →
      timeout ≤ elapsed + (responses.length : ℚ) * interval →
      (pollResultAux timeout interval responses elapsed).outcome
        = PollOutcome.timedOut := by
  intro responses
  induction responses with
  | nil =>
    intro elapsed _ hfuel
    have h0 : ¬(elapsed < timeout) := by
      simp only [List.length_nil, Nat.cast_zero, zero_mul, add_zero] at hfuel
      exact not_lt.mpr hfuel
    simp [pollResultAux, h0]
  | cons q rest ih =>
    intro elapsed hnt hfuel
    have hq := hnt q (List.mem_cons_self q rest)
    rw [nonTerminalStatus, Bool.and_eq_true, Bool.not_eq_true',
      Option.isNone_iff_eq_none] at hq
    by_cases h0 : elapsed < timeout
    · have hrec := ih (elapsed + interval)
        (fun r hr => hnt r (List.mem_cons_of_mem q hr))
        (by
          simp only [List.length_cons] at hfuel
          push_cast at hfuel ⊢
          linarith)
      simp [pollResultAux, h0, hq.1, hq.2, hrec]
    · simp [pollResultAux, h0]

lemma pollResultAux_requests_before_deadline (timeout interval : ℚ) :
    ∀ (responses : List Payload) (elapsed : ℚ),
      ∀ t ∈ (pollResultAux timeout interval responses elapsed).requestTimes,
        t < timeout := by
  intro responses
  induction responses with
  | nil =>
    intro elapsed t ht
    by_cases h0 : elapsed < timeout <;> simp [pollResultAux, h0] at ht
  | cons q rest ih =>
    intro elapsed t ht
    by_cases h0 : elapsed < timeout
    · by_cases hr : isReadyStatus (statusOf q)
      · simp [pollResultAux, h0, hr] at ht
        exact ht ▸ h0
      · cases hf : failureStatusOf (statusOf q) with
        | some s =>
          simp [pollResultAux, h0, hr, hf] at ht
          exact ht ▸ h0
        | none =>
          simp only [pollResultAux, if_pos h0, hr, Bool.false_eq_true,
            if_false, hf, List.mem_cons] at ht
          rcases ht with rfl | ht
          · exact h0
          · exact ih (elapsed + interval) t ht
    · simp [pollResultAux, h0] at ht

lemma pollForResultAux_continue_step (maxWait interval : ℚ) (q : Payload)
    (rest : List Payload) (elapsed : ℚ)
    (h1 : isReadyStatus (statusOf q) = false)
    (h2 : failureStatusOf (statusOf q) = Option.none)
    (hd : ¬maxWait < elapsed) :
    pollForResultAux maxWait interval (q :: rest) elapsed
      = ⟨elapsed ::
            (pollForResultAux maxWait interval rest (elapsed + interval)).requestTimes,
          (pollForResultAux maxWait interval rest (elapsed + interval)).sleeps + 1,
          (pollForResultAux maxWait interval rest (elapsed + interval)).outcome⟩ := by
  conv_lhs => rw [pollForResultAux]
  simp [h1, h2, hd]

lemma pollForResultAux_request_bound (maxWait interval : ℚ) :
    ∀ (responses : List Payload) (elapsed : ℚ),
      ∀ t ∈ (pollForResultAux maxWait interval responses elapsed).requestTimes,
        t = elapsed ∨ t ≤ maxWait + interval := by
  intro responses
  induction responses with
  | nil => intro elapsed t ht; simp [pollForResultAux] at ht
  | cons q rest ih =>
    intro elapsed t ht
    by_cases hr : isReadyStatus (statusOf q)
    · cases hgs : getSample q with
      | error e =>
        simp [pollForResultAux, hr, hgs] at ht
        exact Or.inl ht
      | ok o =>
        cases o with
        | none =>
          simp [pollForResultAux, hr, hgs] at ht
          exact Or.inl ht
        | some v =>
          by_cases hv : pyTruthy v
          · simp [pollForResultAux, hr, hgs, hv] at ht
            exact Or.inl ht
          · simp [pollForResultAux, hr, hgs, hv] at ht
            exact Or.inl ht
    · cases hf : failureStatusOf (statusOf q) with
      | some s =>
        simp [pollForResultAux, hr, hf] at ht
        exact Or.inl ht
      | none =>
        by_cases hd : maxWait < elapsed
        · simp [pollForResultAux, hr, hf, hd] at ht
          exact Or.inl ht
        · simp only [pollForResultAux, hr, Bool.false_eq_true, if_false, hf,
            if_neg hd, List.mem_cons] at ht
          rcases ht with rfl | ht
          · exact Or.inl rfl
          · rcases ih (elapsed + interval) t ht with rfl | hle
            · right
              have := not_lt.mp hd
              linarith
            · exact Or.inr hle

lemma pollForResultAux_nonterminal_timeout (maxWait interval : ℚ) :
    ∀ (responses : List Payload) (elapsed : ℚ),
      (∀ q ∈ responses, nonTerminalStatus q = true) →
      0 < responses.length →
      maxWait < elapsed + ((responses.length : ℚ) - 1) * interval →
      (pollForResultAux maxWait interval responses elapsed).outcome
        = PollNodeOutcome.timedOut := by
  intro responses
  induction responses with
  | nil => intro elapsed _ hlen _; cases hlen
  | cons q rest ih =>
    intro elapsed hnt _ hfuel
    have hq := hnt q (List.mem_cons_self q rest)
    rw [nonTerminalStatus, Bool.and_eq_true, Bool.not_eq_true',
      Option.isNone_iff_eq_none] at hq
    by_cases hd : maxWait < elapsed
    · simp [pollForResultAux, hq.1, hq.2, hd]
    · cases rest with
      | nil =>
        exfalso
        simp only [List.length_cons, List.length_nil] at hfuel
        push_cast at hfuel
        have := not_lt.mp hd
        linarith
      | cons r rest2 =>
        have hrec := ih (elapsed + interval)
          (fun x hx => hnt x (List.mem_cons_of_mem q hx))
          (by simp)
          (by
            simp only [List.length_cons] at hfuel ⊢
            push_cast at hfuel ⊢
            linarith)
        rw [pollForResultAux_continue_step maxWait interval q (r :: rest2)
          elapsed hq.1 hq.2 hd]
        exact hrec

/-! ### Claim C4 -/

/-- Claim C4 (amended): over responses carrying only non-terminal status
values, `Flux2API.poll_result` fails with a timeout error once elapsed
time reaches `timeout`, and every status request it issues happens
strictly before the deadline.  `FloyoFlux2APINode._poll_for_result` also
eventually fails with a timeout error, but it checks the deadline only
after a status request, so its requests are bounded only by
`maxWait + interval`: it can issue one status request after the deadline
has passed. -/
theorem poll_timeout_behavior
    (timeout interval maxWait : ℚ) (responses : List Payload)
    (hnt : ∀ q ∈ responses, nonTerminalStatus q = true) :
    (timeout ≤ (responses.length : ℚ) * interval →
        (pollResult timeout interval responses).outcome = PollOutcome.timedOut)
      ∧ (∀ t ∈ (pollResult timeout interval responses).requestTimes, t < timeout)
      ∧ (0 < responses.length →
          maxWait < ((responses.length : ℚ) - 1) * interval →
          (pollForResult maxWait interval responses).outcome
            = PollNodeOutcome.timedOut)
      ∧ (∀ t ∈ (pollForResult maxWait interval responses).requestTimes,
          t = 0 ∨ t ≤ maxWait + interval) := by
  refine ⟨?_, ?_, ?_, ?_⟩
  · intro hfuel
    exact pollResultAux_nonterminal_timeout timeout interval responses 0 hnt
      (by simpa using hfuel)
  · exact pollResultAux_requests_before_deadline timeout interval responses 0
  · intro hlen hfuel
    exact pollForResultAux_nonterminal_timeout maxWait interval responses 0 hnt
      hlen (by simpa using hfuel)
  · exact pollForResultAux_request_bound maxWait interval responses 0

/-- Witness for C4 at a concrete queue of two pending responses. -/
theorem poll_timeout_behavior_witness :
    (pollResult 2 1 [[("status", PyVal.str "Pending")],
        [("status", PyVal.str "Pending")]]).outcome = PollOutcome.timedOut
      ∧ (pollForResult 0 1 [[("status", PyVal.str "Pending")],
          [("status", PyVal.str "Pending")]]).outcome
        = PollNodeOutcome.timedOut := by
  have h := poll_timeout_behavior 2 1 0
      [[("status", PyVal.str "Pending")], [("status", PyVal.str "Pending")]]
      (by decide)
  refine ⟨h.1 ?_, h.2.2.1 (by norm_num) ?_⟩
  · norm_num
  · norm_num

/-- Counterexample for C4 as stated: with deadline 1 and poll interval 2,
`_poll_for_result` issues its second status request at elapsed time 2,
strictly after the deadline has passed, before failing with the timeout
error. -/
theorem poll_node_request_after_deadline_cx :
    (pollForResult 1 2 [[("status", PyVal.str "Pending")],
        [("status", PyVal.str "Pending")]]).requestTimes = [0, 2]
      ∧ (pollForResult 1 2 [[("status", PyVal.str "Pending")],
          [("status", PyVal.str "Pending")]]).outcome = PollNodeOutcome.timedOut
      ∧ ((1 : ℚ) < 2) := by
  have hq1 : isReadyStatus (statusOf [("status", PyVal.str "Pending")]) = false := by
    decide
  have hq2 : failureStatusOf (statusOf [("status", PyVal.str "Pending")])
      = Option.none := by decide
  have hstep := pollForResultAux_continue_step 1 2 [("status", PyVal.str "Pending")]
      [[("status", PyVal.str "Pending")]] 0 hq1 hq2 (by norm_num)
  have htail : pollForResultAux 1 2 [[("status", PyVal.str "Pending")]] (0 + 2)
      = ⟨[0 + 2], 0, PollNodeOutcome.timedOut⟩ := by
    conv_lhs => rw [pollForResultAux]
    rw [hq1, hq2]
    norm_num
  rw [pollForResult, hstep, htail]
  norm_num

/-! ### Claim C5 -/

/-- Claim C5 (amended): for every 2xx submission response body,
`Flux2API.submit_request` fails with a protocol error when the body lacks
the polling URL field, then when it lacks the request id field, and
returns the response data when both are present.  The standalone node's
`generate`, in contrast, raises only when `polling_url` is missing or
falsy and does not require the id field. -/
theorem submit_validation (data : Payload) :
    (hasKey data "polling_url" = true → hasKey data "id" = true →
        submitValidate data = SubmitOutcome.ok data)
      ∧ (hasKey data "polling_url" = false →
          submitValidate data = SubmitOutcome.missingPollingUrl)
      ∧ (hasKey data "polling_url" = true → hasKey data "id" = false →
          submitValidate data = SubmitOutcome.missingId)
      ∧ (∀ v, data.lookup "polling_url" = some v → pyTruthy v = true →
          generateValidate data = Except.ok v)
      ∧ (data.lookup "polling_url" = Option.none →
          generateValidate data = Except.error ()) := by
  refine ⟨?_, ?_, ?_, ?_, ?_⟩
  · intro h1 h2
    simp [submitValidate, h1, h2]
  · intro h1
    simp [submitValidate, h1]
  · intro h1 h2
    simp [submitValidate, h1, h2]
  · intro v hv ht
    simp [generateValidate, hv, ht]
  · intro hv
    simp [generateValidate, hv]

/-- Witness for C5 at concrete response bodies. -/
theorem submit_validation_witness :
    submitValidate [("polling_url", PyVal.str "u"), ("id", PyVal.str "j1")]
        = SubmitOutcome.ok [("polling_url", PyVal.str "u"), ("id", PyVal.str "j1")]
      ∧ generateValidate [("polling_url", PyVal.str "u")]
        = Except.ok (PyVal.str "u") := by
  have h := submit_validation [("polling_url", PyVal.str "u"), ("id", PyVal.str "j1")]
  have h2 := submit_validation [("polling_url", PyVal.str "u")]
  exact ⟨h.1 (by decide) (by decide),
    h2.2.2.2.1 (PyVal.str "u") rfl (by decide)⟩

/-- Counterexample for C5 as stated: a 2xx submission response containing
a polling URL but no request id field is accepted by the custom node's
`generate` rather than failing with a protocol error. -/
theorem generate_accepts_missing_id_cx :
    generateValidate [("polling_url", PyVal.str "u")] = Except.ok (PyVal.str "u")
      ∧ hasKey [("polling_url", PyVal.str "u")] "id" = false := by
  exact ⟨rfl, by decide⟩

lemma slotKey_ne_of_ne : ∀ {a b : Nat}, 2 ≤ a → a ≤ 8 → 2 ≤ b → b ≤ 8 →
    a ≠ b → slotKey a ≠ slotKey b := by
  intro a b ha ha8 hb hb8 hne
  interval_cases a <;> interval_cases b <;>
    first
      | exact absurd rfl hne
      | decide

lemma input_image_ne_slotKey : ∀ {n : Nat}, 2 ≤ n → n ≤ 8 →
    ("input_image" : String) ≠ slotKey n := by
  intro n h2 h8
  interval_cases n <;> decide

lemma mergeExtras_key_mem : ∀ (extras : List String) (idx : Nat) (k v : String),
    (k, v) ∈ mergeExtras extras idx → ∃ m, idx ≤ m ∧ m ≤ 8 ∧ k = slotKey m := by
  intro extras
  induction extras with
  | nil =>
    intro idx k v h
    simp [mergeExtras] at h
  | cons img rest ih =>
    intro idx k v h
    rw [mergeExtras] at h
    by_cases h8 : 8 < idx
    · rw [if_pos h8] at h
      simp at h
    · rw [if_neg h8] at h
      by_cases hk : keepRef img
      · rw [if_pos hk] at h
        rcases List.mem_cons.mp h with heq | htail
        · exact ⟨idx, le_refl idx, not_lt.mp h8, (Prod.ext_iff.mp heq).1⟩
        · obtain ⟨m, hm1, hm2, hm3⟩ := ih (idx + 1) k v htail
          exact ⟨m, by omega, hm2, hm3⟩
      · rw [if_neg hk] at h
        obtain ⟨m, hm1, hm2, hm3⟩ := ih (idx + 1) k v h
        exact ⟨m, by omega, hm2, hm3⟩

lemma lookup_eq_none_of_forall_ne {β : Type} (k : String) :
    ∀ (l : List (String × β)), (∀ p ∈ l, p.1 ≠ k) →
      List.lookup k l = Option.none := by
  intro l
  induction l with
  | nil => intro _; rfl
  | cons p rest ih =>
    intro h
    obtain ⟨a, b⟩ := p
    have ha : a ≠ k := h (a, b) (List.mem_cons_self _ _)
    have hbeq : (k == a) = false := beq_eq_false_iff_ne.mpr (Ne.symm ha)
    simp [List.lookup, hbeq, ih (fun q hq => h q (List.mem_cons_of_mem _ hq))]

lemma lookup_mergeExtras_none (extras : List String) (idx n : Nat)
    (h2 : 2 ≤ n) (hn : n < idx) :
    List.lookup (slotKey n) (mergeExtras extras idx) = Option.none := by
  apply lookup_eq_none_of_forall_ne
  intro p hp
  obtain ⟨m, hm1, hm2, hm3⟩ := mergeExtras_key_mem extras idx p.1 p.2 hp
  rw [hm3]
  exact slotKey_ne_of_ne (by omega) hm2 h2 (by omega) (by omega)

lemma lookup_mergeExtras (extras : List String) :
    ∀ (idx i : Nat) (h : i < extras.length), 2 ≤ idx → idx + i ≤ 8 →
      List.lookup (slotKey (idx + i)) (mergeExtras extras idx)
        = if keepRef (extras.get ⟨i, h⟩) then some (pyStrip (extras.get ⟨i, h⟩))
          else Option.none := by
  induction extras with
  | nil =>
    intro idx i h
    exact absurd h (Nat.not_lt_zero i)
  | cons img rest ih =>
    intro idx i h h2 h8
    have h8' : ¬(8 < idx) := by omega
    cases i with
    | zero =>
      rw [mergeExtras, if_neg h8']
      by_cases hk : keepRef img
      · rw [if_pos hk]
        simp only [Nat.add_zero, List.get]
        simp [List.lookup, hk]
      · rw [if_neg hk]
        have hnone := lookup_mergeExtras_none rest (idx + 1) (idx + 0)
          (by omega) (by omega)
        rw [hnone]
        simp only [List.get]
        simp [hk]
    | succ j =>
      rw [mergeExtras, if_neg h8']
      have harr : idx + (j + 1) = idx + 1 + j := by omega
      have hj : j < rest.length := Nat.lt_of_succ_lt_succ h
      have hrec := ih (idx + 1) j hj (by omega) (by omega)
      by_cases hk : keepRef img
      · rw [if_pos hk]
        have hne : slotKey (idx + (j + 1)) ≠ slotKey idx :=
          slotKey_ne_of_ne (by omega) (by omega) h2 (by omega) (by omega)
        have hbeq : (slotKey (idx + (j + 1)) == slotKey idx) = false :=
          beq_eq_false_iff_ne.mpr hne
        simp only [List.lookup, hbeq]
        rw [harr, hrec]
        simp only [List.get]
      · rw [if_neg hk, harr, hrec]
        simp only [List.get]

lemma keepRef_eq_true_iff (s : String) : keepRef s = true ↔ pyStrip s ≠ "" := by
  rw [keepRef, Bool.and_eq_true, decide_eq_true_eq, decide_eq_true_eq]
  constructor
  · exact fun h => h.2
  · intro h
    exact ⟨fun hs => h (by rw [hs]; decide), h⟩

/-! ### Claim C10 -/

/-- Claim C10: in `merge_reference_images` the extra-image slot number is
fixed by list position (the entry at 0-based position `i` goes to field
`input_image_(i+2)`); a blank entry leaves its slot absent and later
entries are not shifted down; each included extra image is
whitespace-stripped before insertion; and the main image is stored
verbatim under `input_image` whenever it is a non-empty string, including
a whitespace-only string. -/
theorem merge_reference_images_positional (main : String) (extras : List String) :
    (main ≠ "" →
        List.lookup "input_image" (mergeReferenceImages main extras) = some main)
      ∧ (main = "" →
          List.lookup "input_image" (mergeReferenceImages main extras)
            = Option.none)
      ∧ (∀ i (h : i < extras.length), i + 2 ≤ 8 →
          List.lookup (slotKey (i + 2)) (mergeReferenceImages main extras)
            = if pyStrip (extras.get ⟨i, h⟩) = "" then Option.none
              else some (pyStrip (extras.get ⟨i, h⟩))) := by
  refine ⟨?_, ?_, ?_⟩
  · intro hm
    rw [mergeReferenceImages, if_pos hm, List.singleton_append]
    simp [List.lookup]
  · intro hm
    rw [mergeReferenceImages, if_neg (not_not_intro hm), List.nil_append]
    apply lookup_eq_none_of_forall_ne
    intro p hp
    obtain ⟨m, hm1, hm2, hm3⟩ := mergeExtras_key_mem extras 2 p.1 p.2 hp
    rw [hm3]
    exact (input_image_ne_slotKey hm1 hm2).symm
  · intro i h hle
    have hkey : i + 2 = 2 + i := by omega
    have hlook := lookup_mergeExtras extras 2 i h (le_refl 2) (by omega)
    have hcore : List.lookup (slotKey (i + 2)) (mergeExtras extras 2)
        = if pyStrip (extras.get ⟨i, h⟩) = "" then Option.none
          else some (pyStrip (extras.get ⟨i, h⟩)) := by
      rw [hkey, hlook]
      by_cases hs : pyStrip (extras.get ⟨i, h⟩) = ""
      · have hk : keepRef (extras.get ⟨i, h⟩) = false := by
          rw [← Bool.not_eq_true, keepRef_eq_true_iff]
          exact not_not_intro hs
        simp only [List.get_eq_getElem] at hk hs
        simp [hk, hs]
      · have hk : keepRef (extras.get ⟨i, h⟩) = true :=
          (keepRef_eq_true_iff _).mpr hs
        simp only [List.get_eq_getElem] at hk hs
        simp [hk, hs]
    rw [mergeReferenceImages]
    by_cases hm : main ≠ ""
    · rw [if_pos hm, List.singleton_append]
      have hbeq : (slotKey (i + 2) == "input_image") = false :=
        beq_eq_false_iff_ne.mpr
          (input_image_ne_slotKey (by omega) (by omega)).symm
      simp only [List.lookup, hbeq]
      exact hcore
    · rw [if_neg hm, List.nil_append]
      exact hcore

/-- Witness for C10: a whitespace-only main image is kept verbatim, a
blank first extra leaves slot 2 absent without shifting, and the second
extra lands stripped in slot 3. -/
theorem merge_reference_images_positional_witness :
    List.lookup "input_image" (mergeReferenceImages " " ["", " x ", "  "])
        = some " "
      ∧ List.lookup (slotKey 3) (mergeReferenceImages " " ["", " x ", "  "])
        = some "x"
      ∧ List.lookup (slotKey 2) (mergeReferenceImages " " ["", " x ", "  "])
        = Option.none := by
  have h := merge_reference_images_positional " " ["", " x ", "  "]
  exact ⟨h.1 (by decide),
    (h.2.2 1 (by norm_num) (by norm_num)).trans (by decide),
    (h.2.2 0 (by norm_num) (by norm_num)).trans (by decide)⟩

/-! ### Claim C6 -/

/-- Claim C6: evaluating `merge_reference_images` at a base image and the
nine extra images the flex edit node passes shows the extras are capped at
slot `input_image_8` for every caller: `input_image_9` and
`input_image_10` are never produced, although the flex node declares and
documents reference inputs up to the 10th slot. -/
theorem merge_caps_all_variants_at_slot_8 :
    mergeReferenceImages "base"
        ["r2", "r3", "r4", "r5", "r6", "r7", "r8", "r9", "r10"]
        = [("input_image", "base"), ("input_image_2", "r2"),
            ("input_image_3", "r3"), ("input_image_4", "r4"),
            ("input_image_5", "r5"), ("input_image_6", "r6"),
            ("input_image_7", "r7"), ("input_image_8", "r8")]
      ∧ List.lookup "input_image_9"
          (mergeReferenceImages "base"
            ["r2", "r3", "r4", "r5", "r6", "r7", "r8", "r9", "r10"])
          = Option.none
      ∧ List.lookup "input_image_10"
          (mergeReferenceImages "base"
            ["r2", "r3", "r4", "r5", "r6", "r7", "r8", "r9", "r10"])
          = Option.none := by
  refine ⟨by decide, by decide, by decide⟩

lemma validateDim_eq_none_iff (dimName : String) (d : Int) :
    validateDim dimName d = Option.none
      ↔ (d ≤ 0 ∨ (d % 16 = 0 ∧ 64 ≤ d ∧ d ≤ 2048)) := by
  rw [validateDim]
  split_ifs with h1 h2 h3 <;> simp <;> omega

lemma validateResolution_eq_none_iff (w h : Int) :
    validateResolution w h = Option.none
      ↔ ((w ≤ 0 ∨ (w % 16 = 0 ∧ 64 ≤ w ∧ w ≤ 2048))
          ∧ (h ≤ 0 ∨ (h % 16 = 0 ∧ 64 ≤ h ∧ h ≤ 2048))) := by
  rw [validateResolution]
  cases hw : validateDim "width" w with
  | some e =>
    have hne : ¬(w ≤ 0 ∨ (w % 16 = 0 ∧ 64 ≤ w ∧ w ≤ 2048)) := by
      intro hok
      rw [(validateDim_eq_none_iff "width" w).mpr hok] at hw
      cases hw
    constructor
    · intro hc
      exact absurd hc (Option.some_ne_none e)
    · intro hrhs
      exact absurd hrhs.1 hne
  | none =>
    have hok := (validateDim_eq_none_iff "width" w).mp hw
    rw [validateDim_eq_none_iff]
    constructor
    · intro hh
      exact ⟨hok, hh⟩
    · intro hb
      exact hb.2

/-! ### Claim C7 -/

/-- Claim C7: the resolution validator accepts 0 (meaning unset) for both
dimensions, rejects any positive value that is not a multiple of 16, and
rejects any positive value outside the range [64, 2048]; in full, it
accepts exactly the pairs whose positive components are multiples of 16
within [64, 2048]. -/
theorem resolution_validator_spec (w h : Int) :
    validateResolution 0 0 = Option.none
      ∧ (0 < w → w % 16 ≠ 0 → validateResolution w h ≠ Option.none)
      ∧ (0 < h → h % 16 ≠ 0 → validateResolution w h ≠ Option.none)
      ∧ (0 < w → (w < 64 ∨ 2048 < w) → validateResolution w h ≠ Option.none)
      ∧ (0 < h → (h < 64 ∨ 2048 < h) → validateResolution w h ≠ Option.none)
      ∧ (validateResolution w h = Option.none
          ↔ ((w ≤ 0 ∨ (w % 16 = 0 ∧ 64 ≤ w ∧ w ≤ 2048))
              ∧ (h ≤ 0 ∨ (h % 16 = 0 ∧ 64 ≤ h ∧ h ≤ 2048)))) := by
  refine ⟨(validateResolution_eq_none_iff 0 0).mpr (by omega),
    ?_, ?_, ?_, ?_, validateResolution_eq_none_iff w h⟩
  · intro hw hmod hc
    rcases ((validateResolution_eq_none_iff w h).mp hc).1 with hle | ⟨hm, _, _⟩
    · omega
    · exact hmod hm
  · intro hh hmod hc
    rcases ((validateResolution_eq_none_iff w h).mp hc).2 with hle | ⟨hm, _, _⟩
    · omega
    · exact hmod hm
  · intro hw hout hc
    rcases ((validateResolution_eq_none_iff w h).mp hc).1 with hle | ⟨_, h64, h2048⟩
    · omega
    · omega
  · intro hh hout hc
    rcases ((validateResolution_eq_none_iff w h).mp hc).2 with hle | ⟨_, h64, h2048⟩
    · omega
    · omega

/-- Witness for C7: 3001 is rejected (positive, out of range and not a
multiple of 16), and 1024 by 1024 is accepted. -/
theorem resolution_validator_spec_witness :
    validateResolution 3001 200 ≠ Option.none
      ∧ validateResolution 1024 1024 = Option.none := by
  have h := resolution_validator_spec 3001 200
  have h2 := resolution_validator_spec 1024 1024
  exact ⟨h.2.2.2.1 (by norm_num) (Or.inr (by norm_num)),
    (h2.2.2.2.2.2).mpr (by decide)⟩

lemma flux2ConfigKey_ne_some_empty (envKey fileKey : Option String) (k : String)
    (hk : flux2ConfigKey envKey fileKey = some k) : k ≠ "" := by
  rw [flux2ConfigKey, resolveSetting] at hk
  by_cases h1 : strTruthy envKey
  · rw [if_pos h1] at hk
    cases envKey with
    | none => cases hk
    | some s =>
      rw [Option.some_inj] at hk
      subst hk
      rw [strTruthy, decide_eq_true_eq] at h1
      exact h1
  · rw [if_neg h1] at hk
    by_cases h2 : strTruthy fileKey
    · rw [if_pos h2] at hk
      cases fileKey with
      | none => cases hk
      | some s =>
        rw [Option.some_inj] at hk
        subst hk
        rw [strTruthy, decide_eq_true_eq] at h2
        exact h2
    · rw [if_neg h2] at hk
      cases hk

/-! ### Claim C8 -/

/-- Claim C8 (amended): in the shared resolver `Flux2Config._initialize`,
each setting is resolved in priority order — environment variable first,
then config file value, then a hard-coded default for the two base URLs
only; the API key has no default, and `Flux2API.__init__` fails with a
configuration error exactly when no key is resolved.  The standalone
node's `_load_config` resolves its API key env-first with no default but
resolves its base URL from the config file and then the hard-coded
default, consulting no environment variable. -/
theorem config_resolution_priority
    (env file dflt envKey fileKey envBase fileBase : Option String) :
    (strTruthy env = true → resolveSetting env file dflt = env)
      ∧ (strTruthy env = false → strTruthy file = true →
          resolveSetting env file dflt = file)
      ∧ (strTruthy env = false → strTruthy file = false →
          resolveSetting env file dflt = dflt)
      ∧ (strTruthy envKey = false → strTruthy fileKey = false →
          flux2ConfigKey envKey fileKey = Option.none)
      ∧ (strTruthy envBase = false → strTruthy fileBase = false →
          flux2ConfigBaseUrl envBase fileBase = some defaultBaseUrl
            ∧ flux2ConfigFlexBaseUrl envBase fileBase = some defaultFlexBaseUrl)
      ∧ (flux2ApiInitKey envKey fileKey = Except.error ()
          ↔ flux2ConfigKey envKey fileKey = Option.none)
      ∧ (∀ s, loadConfigBaseUrl envBase (some s) = s)
      ∧ (loadConfigBaseUrl envBase Option.none = nodeDefaultBaseUrl)
      ∧ (strTruthy envKey = false →
          loadConfigApiKey envKey Option.none = Except.error ()) := by
  refine ⟨?_, ?_, ?_, ?_, ?_, ?_, ?_, rfl, ?_⟩
  · intro h1
    rw [resolveSetting, if_pos h1]
  · intro h1 h2
    rw [resolveSetting, if_neg (by rw [h1]; exact Bool.false_ne_true),
      if_pos h2]
  · intro h1 h2
    rw [resolveSetting, if_neg (by rw [h1]; exact Bool.false_ne_true),
      if_neg (by rw [h2]; exact Bool.false_ne_true)]
  · intro h1 h2
    rw [flux2ConfigKey, resolveSetting,
      if_neg (by rw [h1]; exact Bool.false_ne_true),
      if_neg (by rw [h2]; exact Bool.false_ne_true)]
  · intro h1 h2
    constructor
    · rw [flux2ConfigBaseUrl, resolveSetting,
        if_neg (by rw [h1]; exact Bool.false_ne_true),
        if_neg (by rw [h2]; exact Bool.false_ne_true)]
    · rw [flux2ConfigFlexBaseUrl, resolveSetting,
        if_neg (by rw [h1]; exact Bool.false_ne_true),
        if_neg (by rw [h2]; exact Bool.false_ne_true)]
  · constructor
    · intro herr
      cases hk : flux2ConfigKey envKey fileKey with
      | none => rfl
      | some k =>
        have hne := flux2ConfigKey_ne_some_empty envKey fileKey k hk
        rw [flux2ApiInitKey, hk] at herr
        simp [hne] at herr
    · intro hn
      rw [flux2ApiInitKey, hn]
  · intro s
    rfl
  · intro h1
    rw [loadConfigApiKey, if_neg (by rw [h1]; exact Bool.false_ne_true)]

/-- Witness for C8 at concrete settings. -/
theorem config_resolution_priority_witness :
    resolveSetting (some "E") (some "F") Option.none = some "E"
      ∧ flux2ConfigKey Option.none Option.none = Option.none
      ∧ flux2ConfigBaseUrl Option.none (some "") = some defaultBaseUrl
      ∧ (flux2ApiInitKey Option.none Option.none = Except.error ()
          ↔ flux2ConfigKey Option.none Option.none = Option.none)
      ∧ loadConfigBaseUrl (some "E") (some "F") = "F" := by
  have h := config_resolution_priority (some "E") (some "F") Option.none
    Option.none Option.none Option.none (some "")
  exact ⟨h.1 (by decide), h.2.2.2.1 (by decide) (by decide),
    (h.2.2.2.2.1 (by decide) (by decide)).1, h.2.2.2.2.2.1,
    h.2.2.2.2.2.2.1 "F"⟩

/-- Counterexample for C8 as stated: the custom node's `_load_config`
resolves its base URL from the config file even when an environment base
URL is set, so the environment does not take priority for that setting. -/
theorem load_config_base_url_ignores_env_cx :
    loadConfigBaseUrl (some "https://env.example") (some "https://file.example")
        = "https://file.example"
      ∧ ("https://file.example" : String) ≠ "https://env.example" := by
  exact ⟨rfl, by decide⟩

/-! ### Claim C9 -/

/-- Claim C9: for every URL, whenever the fetch or the image decode
fails, `download_image_to_tensor` returns the fixed-size all-black
placeholder tensor (1 × 512 × 512 × 3, every pixel 0) instead of
propagating the underlying exception; the function is total on failing
fetches. -/
theorem url_to_tensor_placeholder_on_failure (url : String) (err : String) :
    downloadImageToTensor url (Except.error err) = blankImageTensor 512 512
      ∧ (blankImageTensor 512 512).batch = 1
      ∧ (blankImageTensor 512 512).height = 512
      ∧ (blankImageTensor 512 512).width = 512
      ∧ (blankImageTensor 512 512).channels = 3
      ∧ ∀ i j c, (blankImageTensor 512 512).pixel i j c = 0 := by
  refine ⟨?_, rfl, rfl, rfl, rfl, fun i j c => rfl⟩
  by_cases hu : url = "" <;> simp [downloadImageToTensor, hu]

/-- Witness for C1 at a concrete payload: an integer field is kept and a
null field is dropped. -/
theorem submit_body_strips_witness :
    ("a", PyVal.int 3) ∈ submitBody [("a", PyVal.int 3), ("b", PyVal.null)]
      ∧ ("b", PyVal.null) ∉ submitBody [("a", PyVal.int 3), ("b", PyVal.null)] := by
  constructor
  · exact (submit_body_strips_exactly_null_and_blank
      [("a", PyVal.int 3), ("b", PyVal.null)] "a" (PyVal.int 3)).mpr
      ⟨by simp, by simp, by simp⟩
  · intro hmem
    have h := (submit_body_strips_exactly_null_and_blank
      [("a", PyVal.int 3), ("b", PyVal.null)] "b" PyVal.null).mp hmem
    exact h.2.1 rfl
